import Mathlib

/-!
Shallow embedding of `src/editor/src/render/map.rs` (the `DrawMap` render
index of the abstreet editor): static drawable construction, the turn-to-lane
offset computation, the quadtree of static drawables, the tick-scoped
`AgentCache`, the edit operations, and the `handle_objects` dispatch pass.

Machine integers are modelled by `Nat`/`Int`; `HashMap`s by association
lists (insertion order fixed as a determinization of the unspecified Rust
iteration order); Rust panics (failed `assert!`, out-of-range indexing,
missing-key indexing) by `Option` with `none` as the abort.
-/

namespace AbStreet

/-- `map_model::TurnID` (external collaborator; modelled from its use in the
source: fields `parent` = destination intersection, `src` / `dst` = lanes). -/
structure TurnID where
  parent : Nat
  src : Nat
  dst : Nat
deriving DecidableEq, Repr

/-- `crate::objects::ID` (modelled from its use in the source match at
`handle_objects`): the polymorphic identifier stored in the quadtree. -/
inductive ID where
  | area (n : Nat)
  | parcel (n : Nat)
  | lane (n : Nat)
  | intersection (n : Nat)
  | building (n : Nat)
  | extraShape (n : Nat)
  | busStop (n : Nat)
  | turn (t : TurnID)
  | car (n : Nat)
  | pedestrian (n : Nat)
  | trip (n : Nat)
deriving DecidableEq, Repr

/-- `geom::Bounds` (external collaborator): an axis-aligned bounding
rectangle, coordinates modelled by `Int`. -/
structure Bounds where
  minX : Int
  minY : Int
  maxX : Int
  maxY : Int
deriving DecidableEq, Repr

/-- The `Renderable` trait object surface used by the dispatcher:
identifier, z-order and bounding box (the opaque draw payload is dropped). -/
structure Renderable where
  rid : ID
  zorder : Int
  bounds : Bounds
deriving DecidableEq, Repr

/-- `map_model::Traversable`: a lane or a turn, the agent cache key. -/
inductive Traversable where
  | lane (l : Nat)
  | turn (t : TurnID)
deriving DecidableEq, Repr

/-- `sim::Tick`: opaque totally ordered tick, modelled by `Nat`. -/
abbrev Tick := Nat

/-- Association-list lookup, modelling `HashMap` key lookup. -/
def lookupKV {κ ν : Type} [DecidableEq κ] (l : List (κ × ν)) (k : κ) : Option ν :=
  (l.find? (fun e => decide (e.1 = k))).map (fun e => e.2)

/-- Association-list insert, modelling `HashMap::insert`: drop any previous
binding of the key, append the new one. -/
def insertKV {κ ν : Type} [DecidableEq κ] (l : List (κ × ν)) (k : κ) (v : ν) :
    List (κ × ν) :=
  (l.filter (fun e => decide (¬ e.1 = k))) ++ [(k, v)]

/-- The `AgentCache` struct of the source: an optional current tick and the
per-segment lists of dynamic drawables. -/
structure AgentCache where
  tick : Option Tick
  agents_per_on : List (Traversable × List Renderable)
deriving DecidableEq, Repr

namespace AgentCache

/-- `AgentCache::has`: false unconditionally when the stored tick differs,
otherwise key membership. -/
def has (c : AgentCache) (tick : Tick) (seg : Traversable) : Bool :=
  if some tick ≠ c.tick then
    false
  else
    (lookupKV c.agents_per_on seg).isSome

/-- `AgentCache::get`: indexes `agents_per_on[&on]` without looking at the
tick; a missing key is the fatal indexing panic, modelled by `none`. -/
def get (c : AgentCache) (seg : Traversable) : Option (List Renderable) :=
  lookupKV c.agents_per_on seg

/-- `AgentCache::put`: on a tick change, clear everything and adopt the new
tick; then `assert!` the segment is not yet present (`none` on failure) and
insert. -/
def put (c : AgentCache) (tick : Tick) (seg : Traversable)
    (agents : List Renderable) : Option AgentCache :=
  let c' := if some tick ≠ c.tick then
    { tick := some tick, agents_per_on := [] }
  else c
  if (lookupKV c'.agents_per_on seg).isSome then
    none
  else
    some { c' with agents_per_on := insertKV c'.agents_per_on seg agents }

end AgentCache

/-- `map_model::Lane` (external collaborator; only the fields the source
reads: the lane id and its two endpoint intersections). -/
structure Lane where
  id : Nat
  src_i : Nat
  dst_i : Nat
deriving DecidableEq, Repr

/-- `map_model::Turn` (external collaborator): its id and the value of
`angle().normalized_degrees() as i64`, the integer sort key the source uses
(the truncation to integer degrees is absorbed into this field). -/
structure Turn where
  id : TurnID
  angleDeg : Int
deriving DecidableEq, Repr

/-- `map_model::Intersection` (external collaborator; only the `turns`
field the source reads). -/
structure Intersection where
  id : Nat
  turns : List TurnID
deriving DecidableEq, Repr

/-- The `map_model::Map` collaborator, modelled from the spec: enumerations
of all entities. Lanes and intersections are indexed densely by their id;
buildings, parcels, bus stops and areas are opaque and carried as ids. -/
structure Map where
  lanes : List Lane
  turns : List Turn
  intersections : List Intersection
  buildings : List Nat
  parcels : List Nat
  bus_stops : List Nat
  areas : List Nat
deriving DecidableEq, Repr

/-- Modelled from the spec: the map exposes the set of turns originating at
a given lane, in the all-turns iteration order. -/
def Map.get_turns_from_lane (m : Map) (l : Nat) : List Turn :=
  m.turns.filter (fun t => decide (t.id.src = l))

/-- `map.get_l`: dense direct lookup; out of range is fatal (`none`). -/
def Map.get_l (m : Map) (i : Nat) : Option Lane :=
  m.lanes[i]?

/-- `map.get_i`: dense direct lookup; out of range is fatal (`none`). -/
def Map.get_i (m : Map) (i : Nat) : Option Intersection :=
  m.intersections[i]?

/-- `map.get_t`: keyed lookup; a missing id is fatal (`none`). -/
def Map.get_t (m : Map) (id : TurnID) : Option Turn :=
  m.turns.find? (fun t => decide (t.id = id))

/-- The sort key order of `sort_by_key(|t| t.angle().normalized_degrees()
as i64)`: compare turns by their integer angle. -/
def turnLE (a b : Turn) : Prop := a.angleDeg ≤ b.angleDeg

instance : DecidableRel turnLE := fun a b =>
  inferInstanceAs (Decidable (a.angleDeg ≤ b.angleDeg))

instance : IsTotal Turn turnLE := ⟨fun a b => Int.le_total a.angleDeg b.angleDeg⟩

instance : IsTrans Turn turnLE := ⟨fun _ _ _ h h' => le_trans h h'⟩

/-- `DrawTurn` (external constructor `DrawTurn::new(map, t, offset)`):
keeps the render payload and the offset the icon placement was derived
from. -/
structure DrawTurn where
  render : Renderable
  offset : Nat
deriving DecidableEq, Repr

/-- The external per-category drawable constructors (`DrawLane::new`,
`DrawTurn::new`, ..., with the color scheme and prerender collaborators
absorbed), modelled from the spec as opaque functions. -/
structure RenderCtx where
  mkLane : Lane → Renderable
  mkTurn : Turn → Nat → Renderable
  mkIntersection : Intersection → Renderable
  mkBuilding : Nat → Renderable
  mkParcel : Nat → Renderable
  mkBusStop : Nat → Renderable
  mkArea : Nat → Renderable

/-- `DrawTurn::new`: wrap the external payload, recording the offset. -/
def DrawTurn.new (ctx : RenderCtx) (t : Turn) (offset : Nat) : DrawTurn :=
  { render := ctx.mkTurn t offset, offset := offset }

/-- `state::Flags` (only the fields the source reads): whether to draw
parcels, and the optional extra-shape source; the external KML/binary
loading and road matching are absorbed into the already-built drawable
list (a fatal load failure never reaches `DrawMap`). -/
structure Flags where
  draw_parcels : Bool
  kml : Option (List Renderable)

/-- The `aabb_quadtree::QuadTree` collaborator, modelled from the spec: a
list of (identifier, bounding box) entries appended by
`insert_with_box`, queried by rectangle intersection. -/
structure QuadTree where
  entries : List (ID × Bounds)
deriving DecidableEq, Repr

/-- Axis-aligned rectangle intersection for the quadtree contract. -/
def Bounds.intersects (a b : Bounds) : Bool :=
  decide (a.minX ≤ b.maxX ∧ b.minX ≤ a.maxX ∧ a.minY ≤ b.maxY ∧ b.minY ≤ a.maxY)

/-- `QuadTree::insert_with_box`: append one entry. -/
def QuadTree.insert_with_box (q : QuadTree) (id : ID) (bbox : Bounds) : QuadTree :=
  { entries := q.entries ++ [(id, bbox)] }

/-- `QuadTree::query`: every inserted id whose box intersects the
rectangle. -/
def QuadTree.query (q : QuadTree) (r : Bounds) : List ID :=
  (q.entries.filter (fun e => e.2.intersects r)).map (fun e => e.1)

/-- The `DrawMap` struct of the source. -/
structure DrawMap where
  lanes : List Renderable
  intersections : List Renderable
  turns : List (TurnID × DrawTurn)
  buildings : List Renderable
  parcels : List Renderable
  extra_shapes : List Renderable
  bus_stops : List (Nat × Renderable)
  areas : List Renderable
  agents : AgentCache
  quadtree : QuadTree
deriving DecidableEq

namespace DrawMap

/-- The `for (idx, t) in group.iter().enumerate() { result.insert(t.id,
idx) }` loop of `compute_turn_to_lane_offset`, with `i` the running index. -/
def insertOffsets (result : List (TurnID × Nat)) (s : List Turn) (i : Nat) :
    List (TurnID × Nat) :=
  match s with
  | [] => result
  | t :: rest => insertOffsets (insertKV result t.id i) rest (i + 1)

/-- `DrawMap::compute_turn_to_lane_offset`: partition the turns from the
lane by whether they end at the destination intersection, stably sort each
group by the integer angle key, and insert offsets 0..n-1 per group. -/
def compute_turn_to_lane_offset (result : List (TurnID × Nat)) (l : Lane)
    (m : Map) : List (TurnID × Nat) :=
  let pair := (m.get_turns_from_lane l.id).partition
    (fun t => decide (t.id.parent = l.dst_i))
  let s0 := pair.1.insertionSort turnLE
  let s1 := pair.2.insertionSort turnLE
  insertOffsets (insertOffsets result s0 0) s1 0

/-- `DrawMap::new`: build every category in source order (parcels only when
enabled, extra shapes only when a source is configured), check the offset
count assertion, then insert the seven listed categories into the
quadtree. Timer instrumentation is dropped. -/
def new (m : Map) (flags : Flags) (ctx : RenderCtx) : Option DrawMap := do
  let lanes := m.lanes.map ctx.mkLane
  let t2o := m.lanes.foldl (fun r l => compute_turn_to_lane_offset r l m) []
  guard (t2o.length = m.turns.length)
  let turns ← m.turns.foldlM (fun acc t => do
    let off ← lookupKV t2o t.id
    pure (insertKV acc t.id (DrawTurn.new ctx t off))) []
  let intersections := m.intersections.map ctx.mkIntersection
  let buildings := m.buildings.map ctx.mkBuilding
  let parcels := if flags.draw_parcels then m.parcels.map ctx.mkParcel else []
  let extra_shapes := match flags.kml with
    | some shapes => shapes
    | none => []
  let bus_stops := m.bus_stops.foldl
    (fun acc s => insertKV acc s (ctx.mkBusStop s)) []
  let areas := m.areas.map ctx.mkArea
  let qt := QuadTree.mk []
  let qt := lanes.foldl (fun q o => q.insert_with_box o.rid o.bounds) qt
  let qt := intersections.foldl (fun q o => q.insert_with_box o.rid o.bounds) qt
  let qt := buildings.foldl (fun q o => q.insert_with_box o.rid o.bounds) qt
  let qt := parcels.foldl (fun q o => q.insert_with_box o.rid o.bounds) qt
  let qt := extra_shapes.foldl (fun q o => q.insert_with_box o.rid o.bounds) qt
  let qt := bus_stops.foldl (fun q e => q.insert_with_box e.2.rid e.2.bounds) qt
  let qt := areas.foldl (fun q o => q.insert_with_box o.rid o.bounds) qt
  pure { lanes := lanes, intersections := intersections, turns := turns,
         buildings := buildings, parcels := parcels,
         extra_shapes := extra_shapes, bus_stops := bus_stops, areas := areas,
         agents := { tick := none, agents_per_on := [] }, quadtree := qt }

/-- `DrawMap::edit_lane_type`: rebuild exactly one lane drawable in place;
the quadtree is deliberately untouched. Out-of-range ids are fatal. -/
def edit_lane_type (d : DrawMap) (id : Nat) (m : Map) (ctx : RenderCtx) :
    Option DrawMap := do
  let l ← m.get_l id
  if id < d.lanes.length then
    some { d with lanes := d.lanes.set id (ctx.mkLane l) }
  else
    none

/-- `DrawMap::edit_remove_turn`: remove one turn drawable. -/
def edit_remove_turn (d : DrawMap) (id : TurnID) : DrawMap :=
  { d with turns := d.turns.filter (fun e => decide (¬ e.1 = id)) }

/-- `DrawMap::edit_add_turn`: recompute the offsets of the source lane of
the added turn from scratch, then insert just that turn drawable. -/
def edit_add_turn (d : DrawMap) (id : TurnID) (m : Map) (ctx : RenderCtx) :
    Option DrawMap := do
  let t ← m.get_t id
  let l ← m.get_l id.src
  let t2o := compute_turn_to_lane_offset [] l m
  let off ← lookupKV t2o id
  some { d with turns := insertKV d.turns id (DrawTurn.new ctx t off) }

end DrawMap

/-- The first partition group of `compute_turn_to_lane_offset`: turns from
the lane whose destination is the `dst_i` intersection of the lane. -/
def turnGroup0 (m : Map) (l : Lane) : List Turn :=
  (m.get_turns_from_lane l.id).filter (fun t => decide (t.id.parent = l.dst_i))

/-- The second partition group: the remaining turns from the lane. -/
def turnGroup1 (m : Map) (l : Lane) : List Turn :=
  (m.get_turns_from_lane l.id).filter (fun t => !(decide (t.id.parent = l.dst_i)))

/-- The first group in its stable ascending-angle order. -/
def sortedGroup0 (m : Map) (l : Lane) : List Turn :=
  (turnGroup0 m l).insertionSort turnLE

/-- The second group in its stable ascending-angle order. -/
def sortedGroup1 (m : Map) (l : Lane) : List Turn :=
  (turnGroup1 m l).insertionSort turnLE

/-- `RenderOrder` from the source. -/
inductive RenderOrder where
  | BackToFront
  | FrontToBack
deriving DecidableEq, Repr

/-- The `state::ShowObjects` collaborator, modelled from the spec: the
visibility predicate pair (`show` is a Lean keyword, hence `show_obj`). -/
structure ShowObjects where
  show_obj : ID → Bool
  show_icons_for : Nat → Bool

/-- The `sim::GetDrawAgents` collaborator, modelled from the spec: the
current tick and the per-segment agent queries, with the external
`draw_vehicle` / `DrawPedestrian::new` wrapping absorbed so each query
yields finished renderables. -/
structure GetDrawAgents where
  tick : Tick
  get_draw_cars : Traversable → List Renderable
  get_draw_peds : Traversable → List Renderable

/-- The mutable local state of one `handle_objects` pass: the eight
category buckets, the recorded occupied segments, and the agent cache. -/
structure HOState where
  areas : List Renderable
  parcels : List Renderable
  lanes : List Renderable
  intersections : List Renderable
  buildings : List Renderable
  extra_shapes : List Renderable
  bus_stops : List Renderable
  turn_icons : List Renderable
  agents_on : List Traversable
  cache : AgentCache

/-- Ensure the cache holds an entry for the segment at the current tick:
on first sight, query the simulation (cars then pedestrians) and `put`. -/
def populateAgents (sim : GetDrawAgents) (cache : AgentCache)
    (seg : Traversable) : Option AgentCache :=
  if ¬ cache.has sim.tick seg then
    cache.put sim.tick seg (sim.get_draw_cars seg ++ sim.get_draw_peds seg)
  else
    some cache

/-- One iteration of the query loop of `handle_objects`: classify a
returned id into its bucket, populate the agent cache for suppressed-icon
lanes and turns, and panic (`none`) on any id that must not be in the
quadtree or any out-of-range lookup. -/
def processID (d : DrawMap) (m : Map) (sim : GetDrawAgents)
    (so : ShowObjects) (st : HOState) (id : ID) : Option HOState :=
  if so.show_obj id then
    match id with
    | ID.area i => do
      let r ← d.areas[i]?
      some { st with areas := st.areas ++ [r] }
    | ID.parcel i => do
      let r ← d.parcels[i]?
      some { st with parcels := st.parcels ++ [r] }
    | ID.lane i => do
      let r ← d.lanes[i]?
      let st := { st with lanes := st.lanes ++ [r] }
      let lane ← m.get_l i
      if ¬ so.show_icons_for lane.dst_i then
        let seg := Traversable.lane i
        let cache ← populateAgents sim st.cache seg
        some { st with cache := cache, agents_on := st.agents_on ++ [seg] }
      else
        some st
    | ID.intersection i => do
      let r ← d.intersections[i]?
      let st := { st with intersections := st.intersections ++ [r] }
      let inter ← m.get_i i
      inter.turns.foldlM (fun st t =>
        if so.show_icons_for i then do
          let dt ← lookupKV d.turns t
          some { st with turn_icons := st.turn_icons ++ [dt.render] }
        else do
          let seg := Traversable.turn t
          let cache ← populateAgents sim st.cache seg
          some { st with cache := cache, agents_on := st.agents_on ++ [seg] })
        st
    | ID.building i => do
      let r ← d.buildings[i]?
      some { st with buildings := st.buildings ++ [r] }
    | ID.extraShape i => do
      let r ← d.extra_shapes[i]?
      some { st with extra_shapes := st.extra_shapes ++ [r] }
    | ID.busStop i => do
      let r ← lookupKV d.bus_stops i
      some { st with bus_stops := st.bus_stops ++ [r] }
    | ID.turn _ => none
    | ID.car _ => none
    | ID.pedestrian _ => none
    | ID.trip _ => none
  else
    some st

/-- The concatenation of the eight static buckets in the fixed source
order. -/
def staticConcat (st : HOState) : List Renderable :=
  st.areas ++ st.parcels ++ st.lanes ++ st.intersections ++ st.buildings ++
    st.extra_shapes ++ st.bus_stops ++ st.turn_icons

/-- The dynamic appendix: for every recorded segment, in recording order,
the cached drawables in cache order; a missing cache entry is fatal. -/
def dynamicAppendix (st : HOState) : Option (List Renderable) :=
  st.agents_on.foldlM (fun acc seg =>
    (st.cache.get seg).map (fun xs => acc ++ xs)) []

/-- The z-order comparison of the final `sort_by_key(|r| r.get_zorder())`. -/
def zLE (a b : Renderable) : Prop := a.zorder ≤ b.zorder

instance : DecidableRel zLE := fun a b =>
  inferInstanceAs (Decidable (a.zorder ≤ b.zorder))

instance : IsTotal Renderable zLE := ⟨fun a b => Int.le_total a.zorder b.zorder⟩

instance : IsTrans Renderable zLE := ⟨fun _ _ _ h h' => le_trans h h'⟩

/-- The final delivery loop: call the consumer on each element in turn and
break as soon as it returns false (the element the consumer rejected was
still delivered to it). -/
def deliver (cb : Renderable → Bool) : List Renderable → List Renderable
  | [] => []
  | r :: rest => if cb r then r :: deliver cb rest else [r]

/-- The empty bucket state at the start of a pass, holding the persistent
agent cache of the draw map. -/
def initHOState (d : DrawMap) : HOState :=
  { areas := [], parcels := [], lanes := [], intersections := [],
    buildings := [], extra_shapes := [], bus_stops := [], turn_icons := [],
    agents_on := [], cache := d.agents }

/-- `DrawMap::handle_objects`: query the quadtree, classify and populate,
concatenate buckets then cached agents, stably sort by z-order, reverse
for front-to-back, and stream with early abort. Returns the delivered
sequence and the final cache state; `none` is a panic. -/
def DrawMap.handle_objects (d : DrawMap) (screen_bounds : Bounds) (m : Map)
    (sim : GetDrawAgents) (so : ShowObjects) (order : RenderOrder)
    (cb : Renderable → Bool) : Option (List Renderable × AgentCache) := do
  let st ← (d.quadtree.query screen_bounds).foldlM (processID d m sim so)
    (initHOState d)
  let dyn ← dynamicAppendix st
  let borrows := staticConcat st ++ dyn
  let sorted := borrows.insertionSort zLE
  let ordered := if order = RenderOrder.FrontToBack then sorted.reverse else sorted
  some (deliver cb ordered, st.cache)

/-! Concrete sample objects shared by the witnesses and counterexamples. -/

def boundsZero : Bounds := ⟨0, 0, 0, 0⟩

def agentX : Renderable := ⟨ID.car 0, 3, boundsZero⟩

def agentY : Renderable := ⟨ID.pedestrian 0, 4, boundsZero⟩

def segA : Traversable := Traversable.lane 0

def segB : Traversable := Traversable.lane 1

def rArea0 : Renderable := ⟨ID.area 0, 0, boundsZero⟩

def rArea1 : Renderable := ⟨ID.area 1, 1, boundsZero⟩

def rArea2 : Renderable := ⟨ID.area 2, 2, boundsZero⟩

def rBuilding0 : Renderable := ⟨ID.building 0, 2, boundsZero⟩

/-- An empty map for dispatch witnesses that never touch map lookups. -/
def mapEmpty : Map :=
  { lanes := [], turns := [], intersections := [], buildings := [],
    parcels := [], bus_stops := [], areas := [] }

/-- A trivial simulation view: tick 0, no agents anywhere. -/
def simNone : GetDrawAgents :=
  { tick := 0, get_draw_cars := fun _ => [], get_draw_peds := fun _ => [] }

/-- A visibility policy showing everything, icons everywhere. -/
def soAll : ShowObjects :=
  { show_obj := fun _ => true, show_icons_for := fun _ => true }

/-- A small concrete draw map: one area (z-order 0) and one building
(z-order 2), both in the quadtree. -/
def dmSmall : DrawMap :=
  { lanes := [], intersections := [], turns := [], buildings := [rBuilding0],
    parcels := [], extra_shapes := [], bus_stops := [], areas := [rArea0],
    agents := { tick := none, agents_per_on := [] },
    quadtree := { entries := [(ID.area 0, boundsZero),
                             (ID.building 0, boundsZero)] } }

/-- A concrete draw map with three areas at z-orders 0, 1, 2. -/
def dmThree : DrawMap :=
  { lanes := [], intersections := [], turns := [], buildings := [],
    parcels := [], extra_shapes := [], bus_stops := [],
    areas := [rArea0, rArea1, rArea2],
    agents := { tick := none, agents_per_on := [] },
    quadtree := { entries := [(ID.area 0, boundsZero), (ID.area 1, boundsZero),
                             (ID.area 2, boundsZero)] } }

/-- The concrete lane of the spec example for the turn offsets. -/
def laneC4 : Lane := ⟨0, 0, 1⟩

/-- Turn at 170 integer degrees ending at intersection 1. -/
def turn170 : Turn := ⟨⟨1, 0, 10⟩, 170⟩

/-- Turn at 10 integer degrees ending at intersection 1. -/
def turn10 : Turn := ⟨⟨1, 0, 11⟩, 10⟩

/-- Turn at 90 integer degrees ending at intersection 1. -/
def turn90 : Turn := ⟨⟨1, 0, 12⟩, 90⟩

/-- The concrete map of the spec example: one lane, three turns at angles
170, 10, 90 (in that iteration order) all ending at intersection 1. -/
def mapC4 : Map :=
  { lanes := [laneC4], turns := [turn170, turn10, turn90],
    intersections := [], buildings := [], parcels := [], bus_stops := [],
    areas := [] }

/-- A concrete constructor bundle for witnesses: each category constructor
tags its identifier correctly and uses fixed z-orders and bounds. -/
def ctxConst : RenderCtx :=
  { mkLane := fun l => ⟨ID.lane l.id, 1, boundsZero⟩,
    mkTurn := fun t _ => ⟨ID.turn t.id, 6, boundsZero⟩,
    mkIntersection := fun i => ⟨ID.intersection i.id, 1, boundsZero⟩,
    mkBuilding := fun n => ⟨ID.building n, 2, boundsZero⟩,
    mkParcel := fun n => ⟨ID.parcel n, 0, boundsZero⟩,
    mkBusStop := fun n => ⟨ID.busStop n, 3, boundsZero⟩,
    mkArea := fun n => ⟨ID.area n, 0, boundsZero⟩ }

/-- A one-lane draw map for the edit witness. -/
def dmLane : DrawMap :=
  { lanes := [⟨ID.lane 0, 5, boundsZero⟩], intersections := [], turns := [],
    buildings := [], parcels := [], extra_shapes := [], bus_stops := [],
    areas := [],
    agents := { tick := none, agents_per_on := [] },
    quadtree := { entries := [(ID.lane 0, boundsZero)] } }

/-- The one-lane draw map after `edit_lane_type 0`. -/
def dmLaneEdited : DrawMap :=
  { dmLane with lanes := [⟨ID.lane 0, 1, boundsZero⟩] }

/-- Flags with parcels off and no extra-shape source. -/
def flagsNone : Flags := { draw_parcels := false, kml := none }

/-- A turn from lane 0 to lane 2 through intersection 1 at 90 degrees. -/
def turnC2 : Turn := ⟨⟨1, 0, 2⟩, 90⟩

/-- A one-lane one-turn map. -/
def mapC2 : Map :=
  { lanes := [⟨0, 0, 1⟩], turns := [turnC2], intersections := [],
    buildings := [], parcels := [], bus_stops := [], areas := [] }

/-- The draw map `DrawMap.new` builds from `mapC2` with `ctxConst`: the turn
drawable exists but only the lane is in the quadtree. -/
def dmC2 : DrawMap :=
  { lanes := [⟨ID.lane 0, 1, boundsZero⟩], intersections := [],
    turns := [(turnC2.id, ⟨⟨ID.turn turnC2.id, 6, boundsZero⟩, 0⟩)],
    buildings := [], parcels := [], extra_shapes := [], bus_stops := [],
    areas := [],
    agents := { tick := none, agents_per_on := [] },
    quadtree := { entries := [(ID.lane 0, boundsZero)] } }

/-- A second turn from lane 0 through intersection 1 at 10 degrees, added
by an edit after the build of `dmC2`. -/
def turnT2 : Turn := ⟨⟨1, 0, 3⟩, 10⟩

/-- `mapC2` after the map edit that adds `turnT2`. -/
def mapC9 : Map := { mapC2 with turns := [turnC2, turnT2] }

/-- The offsets of the turn drawables of one (source lane, destination
intersection) group. -/
def offsetsOf (d : DrawMap) (src parent : Nat) : List Nat :=
  (d.turns.filter (fun e => decide (e.1.src = src ∧ e.1.parent = parent))).map
    (fun e => e.2.offset)

/-- The constructors of a render context tag every drawable identifier with
the category it was built for (true of every real per-category
constructor). -/
def wellTagged (ctx : RenderCtx) : Prop :=
  (∀ l, ∃ n, (ctx.mkLane l).rid = ID.lane n)
  ∧ (∀ i, ∃ n, (ctx.mkIntersection i).rid = ID.intersection n)
  ∧ (∀ b, ∃ n, (ctx.mkBuilding b).rid = ID.building n)
  ∧ (∀ p, ∃ n, (ctx.mkParcel p).rid = ID.parcel n)
  ∧ (∀ s, ∃ n, (ctx.mkBusStop s).rid = ID.busStop n)
  ∧ (∀ a, ∃ n, (ctx.mkArea a).rid = ID.area n)

/-! Association-list helper lemmas. -/

theorem lookupKV_insertKV {κ ν : Type} [DecidableEq κ] (l : List (κ × ν))
    (k k' : κ) (v : ν) :
    lookupKV (insertKV l k v) k' = if k' = k then some v else lookupKV l k' := by
  induction l with
  | nil =>
    by_cases h : k' = k
    · simp [lookupKV, insertKV, List.find?, h]
    · have h2 : ¬ k = k' := fun hx => h hx.symm
      simp [lookupKV, insertKV, List.find?, h, h2]
  | cons e rest ih =>
    by_cases he : e.1 = k
    · have : insertKV (e :: rest) k v = insertKV rest k v := by
        simp [insertKV, he]
      rw [this, ih]
      by_cases h : k' = k
      · simp [h]
      · have hne : ¬ e.1 = k' := by
          intro hx
          exact h (hx ▸ he ▸ rfl)
        simp [h, lookupKV, List.find?, hne]
    · have : insertKV (e :: rest) k v = e :: insertKV rest k v := by
        simp [insertKV, he]
      rw [this]
      by_cases hk : e.1 = k'
      · have h : ¬ k' = k := by
          intro hx
          exact he (hx ▸ hk)
        simp [lookupKV, List.find?, hk, h]
      · simp only [lookupKV, List.find?, hk]
        simpa [lookupKV] using ih

theorem lookupKV_nil {κ ν : Type} [DecidableEq κ] (k : κ) :
    lookupKV ([] : List (κ × ν)) k = none := rfl

/-! Turn-offset computation lemmas. -/

theorem lookupKV_insertOffsets_not_mem (r : List (TurnID × Nat))
    (s : List Turn) (i : Nat) (k : TurnID) (h : k ∉ s.map Turn.id) :
    lookupKV (DrawMap.insertOffsets r s i) k = lookupKV r k := by
  induction s generalizing r i with
  | nil => rfl
  | cons t rest ih =>
    simp only [List.map_cons, List.mem_cons, not_or] at h
    rw [DrawMap.insertOffsets, ih _ _ h.2, lookupKV_insertKV, if_neg h.1]

theorem lookupKV_insertOffsets_get (r : List (TurnID × Nat)) (s : List Turn)
    (i : Nat) (hnodup : (s.map Turn.id).Nodup) (j : Nat) (hj : j < s.length) :
    lookupKV (DrawMap.insertOffsets r s i) ((s.get ⟨j, hj⟩).id)
      = some (i + j) := by
  induction s generalizing r i j with
  | nil => exact absurd hj (by simp)
  | cons t rest ih =>
    simp only [List.map_cons, List.nodup_cons] at hnodup
    cases j with
    | zero =>
      rw [DrawMap.insertOffsets]
      show lookupKV (DrawMap.insertOffsets (insertKV r t.id i) rest (i + 1))
        t.id = some (i + 0)
      rw [lookupKV_insertOffsets_not_mem _ _ _ _ hnodup.1,
        lookupKV_insertKV, if_pos rfl]
      rfl
    | succ j' =>
      rw [DrawMap.insertOffsets]
      have hj' : j' < rest.length := by
        simpa using hj
      have := ih (insertKV r t.id i) (i + 1) hnodup.2 j' hj'
      have hget : ((t :: rest).get ⟨j' + 1, hj⟩) = rest.get ⟨j', hj'⟩ := rfl
      rw [hget, this]
      congr 1
      omega

theorem compute_eq_insertOffsets (r : List (TurnID × Nat)) (l : Lane)
    (m : Map) :
    DrawMap.compute_turn_to_lane_offset r l m
      = DrawMap.insertOffsets
          (DrawMap.insertOffsets r (sortedGroup0 m l) 0) (sortedGroup1 m l)
          0 := by
  simp only [DrawMap.compute_turn_to_lane_offset,
    List.partition_eq_filter_filter, sortedGroup0, sortedGroup1, turnGroup0,
    turnGroup1]
  rfl

/-- Under distinct turn ids, the two groups of a lane have disjoint id
lists, the sorted order of each group has distinct ids, and both keep the
membership from the partition. -/
theorem turnGroups_nodup (m : Map) (l : Lane)
    (hnodup : ((m.get_turns_from_lane l.id).map Turn.id).Nodup) :
    ((sortedGroup0 m l).map Turn.id).Nodup
    ∧ ((sortedGroup1 m l).map Turn.id).Nodup
    ∧ List.Disjoint ((sortedGroup0 m l).map Turn.id)
        ((sortedGroup1 m l).map Turn.id) := by
  have happ : (turnGroup0 m l ++ turnGroup1 m l).Perm
      (m.get_turns_from_lane l.id) :=
    List.filter_append_perm _ _
  have hnodapp : ((turnGroup0 m l ++ turnGroup1 m l).map Turn.id).Nodup :=
    ((happ.map Turn.id).nodup_iff).mpr hnodup
  rw [List.map_append, List.nodup_append] at hnodapp
  obtain ⟨hn0, hn1, hdisj⟩ := hnodapp
  have hp0 : ((sortedGroup0 m l).map Turn.id).Perm
      ((turnGroup0 m l).map Turn.id) :=
    (List.perm_insertionSort turnLE (turnGroup0 m l)).map Turn.id
  have hp1 : ((sortedGroup1 m l).map Turn.id).Perm
      ((turnGroup1 m l).map Turn.id) :=
    (List.perm_insertionSort turnLE (turnGroup1 m l)).map Turn.id
  refine ⟨hp0.nodup_iff.mpr hn0, hp1.nodup_iff.mpr hn1, ?_⟩
  intro a ha0 ha1
  exact hdisj (hp0.mem_iff.mp ha0) (hp1.mem_iff.mp ha1)

/-- The offset assigned to the j-th turn of the sorted first group. -/
theorem compute_lookup0 (r : List (TurnID × Nat)) (l : Lane) (m : Map)
    (hnodup : ((m.get_turns_from_lane l.id).map Turn.id).Nodup)
    (j : Nat) (hj : j < (sortedGroup0 m l).length) :
    lookupKV (DrawMap.compute_turn_to_lane_offset r l m)
      (((sortedGroup0 m l).get ⟨j, hj⟩).id) = some j := by
  obtain ⟨hn0, hn1, hdisj⟩ := turnGroups_nodup m l hnodup
  rw [compute_eq_insertOffsets]
  have hmem : ((sortedGroup0 m l).get ⟨j, hj⟩).id
      ∈ (sortedGroup0 m l).map Turn.id :=
    List.mem_map_of_mem Turn.id (List.get_mem _ _ hj)
  rw [lookupKV_insertOffsets_not_mem _ _ _ _ (fun hx => hdisj hmem hx)]
  have := lookupKV_insertOffsets_get r (sortedGroup0 m l) 0 hn0 j hj
  simpa using this

/-- The offset assigned to the j-th turn of the sorted second group. -/
theorem compute_lookup1 (r : List (TurnID × Nat)) (l : Lane) (m : Map)
    (hnodup : ((m.get_turns_from_lane l.id).map Turn.id).Nodup)
    (j : Nat) (hj : j < (sortedGroup1 m l).length) :
    lookupKV (DrawMap.compute_turn_to_lane_offset r l m)
      (((sortedGroup1 m l).get ⟨j, hj⟩).id) = some j := by
  obtain ⟨hn0, hn1, hdisj⟩ := turnGroups_nodup m l hnodup
  rw [compute_eq_insertOffsets]
  have := lookupKV_insertOffsets_get
    (DrawMap.insertOffsets r (sortedGroup0 m l) 0) (sortedGroup1 m l) 0 hn1
    j hj
  simpa using this

/-- Keys of turns not from this lane pass through unchanged. -/
theorem compute_lookup_other (r : List (TurnID × Nat)) (l : Lane) (m : Map)
    (k : TurnID) (hk : k ∉ (m.get_turns_from_lane l.id).map Turn.id) :
    lookupKV (DrawMap.compute_turn_to_lane_offset r l m) k = lookupKV r k := by
  have hsub0 : ∀ a, a ∈ (sortedGroup0 m l).map Turn.id →
      a ∈ (m.get_turns_from_lane l.id).map Turn.id := by
    intro a ha
    have := ((List.perm_insertionSort turnLE (turnGroup0 m l)).map
      Turn.id).mem_iff.mp ha
    simp only [turnGroup0, List.mem_map] at this
    obtain ⟨t, ht, rfl⟩ := this
    exact List.mem_map_of_mem Turn.id (List.mem_of_mem_filter ht)
  have hsub1 : ∀ a, a ∈ (sortedGroup1 m l).map Turn.id →
      a ∈ (m.get_turns_from_lane l.id).map Turn.id := by
    intro a ha
    have := ((List.perm_insertionSort turnLE (turnGroup1 m l)).map
      Turn.id).mem_iff.mp ha
    simp only [turnGroup1, List.mem_map] at this
    obtain ⟨t, ht, rfl⟩ := this
    exact List.mem_map_of_mem Turn.id (List.mem_of_mem_filter ht)
  rw [compute_eq_insertOffsets,
    lookupKV_insertOffsets_not_mem _ _ _ _ (fun hx => hk (hsub1 _ hx)),
    lookupKV_insertOffsets_not_mem _ _ _ _ (fun hx => hk (hsub0 _ hx))]

/-- A successful `put` yields exactly the cache with the (possibly freshly
adopted) tick and the inserted binding. -/
theorem AgentCache.put_eq (c c1 : AgentCache) (t : Tick) (s : Traversable)
    (xs : List Renderable) (h : c.put t s xs = some c1) :
    c1 = AgentCache.mk (some t)
      (insertKV (if some t = c.tick then c.agents_per_on else []) s xs) := by
  by_cases hct : some t ≠ c.tick
  · simp only [AgentCache.put, if_pos hct, lookupKV_nil] at h
    simp only [Option.isSome_none, Bool.false_eq_true, if_false,
      Option.some.injEq] at h
    rw [if_neg (fun hx => hct hx)]
    exact h.symm
  · push_neg at hct
    have hct2 : ¬ some t ≠ c.tick := fun hx => hx hct
    simp only [AgentCache.put, if_neg hct2] at h
    split at h
    · exact absurd h (by simp)
    · simp only [Option.some.injEq] at h
      rw [if_pos hct, ← h, ← hct]

/-- Claim C3: `has` is false whenever the stored tick differs; a successful
`put t s xs` makes `has t s` true and `get s` return `xs`; a `put` at a new
tick adopts that tick and clears all prior entries, so `has` at the old
tick becomes false for every segment. -/
theorem C3_cache_tick_scoping (c c1 c2 : AgentCache) (t t2 : Tick)
    (s s2 : Traversable) (xs ys : List Renderable) :
    (c.tick ≠ some t → c.has t s = false)
    ∧ (c.put t s xs = some c1 → c1.has t s = true ∧ c1.get s = some xs)
    ∧ (c.tick = some t → t2 ≠ t → c.put t2 s2 ys = some c2 →
        c2.tick = some t2 ∧ ∀ u : Traversable, c2.has t u = false) := by
  refine ⟨?_, ?_, ?_⟩
  · intro h
    simp [AgentCache.has]
    intro hx
    exact absurd hx.symm h
  · intro h
    have hc1 := AgentCache.put_eq c c1 t s xs h
    constructor
    · simp [AgentCache.has, hc1, lookupKV_insertKV]
    · simp [AgentCache.get, hc1, lookupKV_insertKV]
  · intro htick hne h
    have hc2 := AgentCache.put_eq c c2 t2 s2 ys h
    have hdiff : ¬ some t2 = c.tick := by
      rw [htick]
      simp
      exact hne
    rw [if_neg hdiff] at hc2
    constructor
    · rw [hc2]
    · intro u
      simp [AgentCache.has, hc2]
      intro hx
      exact absurd hx (fun hh => hne (by simpa using hh.symm))

/-- Claim C3 witness: the scenario of the spec at concrete inputs. -/
theorem C3_cache_tick_scoping_witness :
    ((AgentCache.mk none []).has 5 segA = false)
    ∧ ((AgentCache.mk (some 5) (insertKV [] segA [agentX])).has 5 segA = true
        ∧ (AgentCache.mk (some 5) (insertKV [] segA [agentX])).get segA
            = some [agentX])
    ∧ ((AgentCache.mk (some 6) (insertKV [] segB [agentY])).tick = some 6
        ∧ ∀ u : Traversable,
            (AgentCache.mk (some 6) (insertKV [] segB [agentY])).has 5 u
              = false) := by
  have h1 := C3_cache_tick_scoping (AgentCache.mk none [])
    (AgentCache.mk (some 5) (insertKV [] segA [agentX]))
    (AgentCache.mk (some 5) (insertKV [] segA [agentX])) 5 5 segA segA
    [agentX] [agentX]
  have h2 := C3_cache_tick_scoping
    (AgentCache.mk (some 5) (insertKV [] segA [agentX]))
    (AgentCache.mk (some 5) (insertKV [] segA [agentX]))
    (AgentCache.mk (some 6) (insertKV [] segB [agentY])) 5 6 segA segB
    [agentX] [agentY]
  refine ⟨h1.1 (by decide), h1.2.1 (by decide), h2.2.2 rfl (by decide) (by decide)⟩

/-- Claim C5: a `put` at the current tick for a segment that already has an
entry fails the assertion (modelled by `none`); nothing is overwritten. -/
theorem C5_cache_put_asserts (c : AgentCache) (t : Tick) (s : Traversable)
    (ys : List Renderable) (htick : c.tick = some t)
    (hhas : c.has t s = true) :
    c.put t s ys = none := by
  simp only [AgentCache.put]
  have hsame : ¬ some t ≠ c.tick := by
    rw [htick]
    simp
  rw [if_neg hsame]
  simp only [AgentCache.has, if_neg hsame] at hhas
  simp [hhas]

/-- Claim C5 witness: a duplicate insertion at tick 5 for a cached segment
fails. -/
theorem C5_cache_put_asserts_witness :
    (AgentCache.mk (some 5) [(segA, [agentX])]).put 5 segA [agentY] = none :=
  C5_cache_put_asserts (AgentCache.mk (some 5) [(segA, [agentX])]) 5 segA
    [agentY] rfl (by decide)

/-- Claim C10: `get` never inspects the tick — replacing the stored tick
does not change any `get` result; a segment with a stored entry is returned
unchanged even when `has` at the advanced tick is false; and a segment with
no stored entry aborts (modelled by `none`, never an empty list). -/
theorem C10_cache_get_ignores_tick (c : AgentCache) (t t2 : Tick)
    (tk : Option Tick) (s : Traversable) (xs : List Renderable) :
    (({ c with tick := tk } : AgentCache).get s = c.get s)
    ∧ (c.tick = some t → t2 ≠ t → lookupKV c.agents_per_on s = some xs →
        c.has t2 s = false ∧ c.get s = some xs)
    ∧ (lookupKV c.agents_per_on s = none →
        c.get s = none ∧ c.get s ≠ some []) := by
  refine ⟨rfl, ?_, ?_⟩
  · intro htick hne hstore
    refine ⟨?_, hstore⟩
    simp [AgentCache.has, htick]
    intro hx
    exact absurd hx (fun hh => hne hh)
  · intro hmiss
    refine ⟨hmiss, ?_⟩
    simp [AgentCache.get, hmiss]

/-! Dispatch lemmas. -/

/-- A consumer that always accepts receives the whole sequence. -/
theorem deliver_true (xs : List Renderable) :
    deliver (fun _ => true) xs = xs := by
  induction xs with
  | nil => rfl
  | cons r rest ih => simp [deliver, ih]

/-- Every delivered element that has a successor in the delivered sequence
was accepted by the consumer: a rejection is immediately final. -/
theorem deliver_stops (cb : Renderable → Bool) (xs : List Renderable) :
    ∀ i a b, (deliver cb xs)[i]? = some a → (deliver cb xs)[i + 1]? = some b →
      cb a = true := by
  induction xs with
  | nil =>
    intro i a b ha _
    simp [deliver] at ha
  | cons r rest ih =>
    intro i a b ha hb
    by_cases hc : cb r = true
    · have hd : deliver cb (r :: rest) = r :: deliver cb rest := by
        simp [deliver, hc]
      rw [hd] at ha hb
      cases i with
      | zero =>
        simp only [List.getElem?_cons_zero, Option.some.injEq] at ha
        exact ha ▸ hc
      | succ j =>
        simp only [List.getElem?_cons_succ] at ha hb
        exact ih j a b ha hb
    · have hd : deliver cb (r :: rest) = [r] := by
        simp [deliver, hc]
      rw [hd] at hb
      cases i <;> simp at hb

/-- The delivered sequence is a prefix of the full ordered sequence. -/
theorem deliver_append (cb : Renderable → Bool) (xs : List Renderable) :
    ∃ rest, xs = deliver cb xs ++ rest := by
  induction xs with
  | nil => exact ⟨[], rfl⟩
  | cons r rest ih =>
    by_cases hc : cb r = true
    · obtain ⟨tail, htail⟩ := ih
      exact ⟨tail, by simpa [deliver, hc] using htail⟩
    · exact ⟨rest, by simp [deliver, hc]⟩

/-- Claim C10 witness: a tick-5 entry read after the tick advanced to 6,
and an abort on a missing segment. -/
theorem C10_cache_get_ignores_tick_witness :
    ((AgentCache.mk (some 5) [(segA, [agentX])]).has 6 segA = false
      ∧ (AgentCache.mk (some 5) [(segA, [agentX])]).get segA = some [agentX])
    ∧ ((AgentCache.mk (some 5) [(segA, [agentX])]).get segB = none
      ∧ (AgentCache.mk (some 5) [(segA, [agentX])]).get segB ≠ some []) := by
  have h := C10_cache_get_ignores_tick
    (AgentCache.mk (some 5) [(segA, [agentX])]) 5 6 none segA [agentX]
  have h2 := C10_cache_get_ignores_tick
    (AgentCache.mk (some 5) [(segA, [agentX])]) 5 6 none segB []
  exact ⟨h.2.1 rfl (by decide) (by decide), h2.2.2 (by decide)⟩

/-- Claim C6: for any viewport, visibility policy and simulation state, the
front-to-back delivery of a non-aborting consumer is exactly the reverse of
the back-to-front delivery. -/
theorem C6_front_to_back_is_reverse (d : DrawMap) (b : Bounds) (m : Map)
    (sim : GetDrawAgents) (so : ShowObjects) (out1 out2 : List Renderable)
    (c1 c2 : AgentCache)
    (h1 : d.handle_objects b m sim so RenderOrder.BackToFront (fun _ => true)
        = some (out1, c1))
    (h2 : d.handle_objects b m sim so RenderOrder.FrontToBack (fun _ => true)
        = some (out2, c2)) :
    out2 = out1.reverse := by
  simp only [DrawMap.handle_objects, bind, Option.bind_eq_some,
    Option.some.injEq, Prod.mk.injEq] at h1 h2
  obtain ⟨st, hst, dyn, hdyn, ho1, hc1⟩ := h1
  obtain ⟨st2, hst2, dyn2, hdyn2, ho2, hc2⟩ := h2
  rw [hst] at hst2
  injection hst2 with hst2
  subst hst2
  rw [hdyn] at hdyn2
  injection hdyn2 with hdyn2
  subst hdyn2
  rw [← ho1, ← ho2]
  simp [deliver_true]

/-- Claim C6 witness: on the two-object draw map, back-to-front delivers
the area then the building, front-to-back delivers the exact reverse. -/
theorem C6_front_to_back_is_reverse_witness :
    dmSmall.handle_objects boundsZero mapEmpty simNone soAll
        RenderOrder.BackToFront (fun _ => true)
      = some ([rArea0, rBuilding0], AgentCache.mk none [])
    ∧ dmSmall.handle_objects boundsZero mapEmpty simNone soAll
        RenderOrder.FrontToBack (fun _ => true)
      = some ([rBuilding0, rArea0], AgentCache.mk none [])
    ∧ [rBuilding0, rArea0] = [rArea0, rBuilding0].reverse :=
  ⟨by decide, by decide,
    C6_front_to_back_is_reverse dmSmall boundsZero mapEmpty simNone soAll
      [rArea0, rBuilding0] [rBuilding0, rArea0]
      (AgentCache.mk none []) (AgentCache.mk none [])
      (by decide) (by decide)⟩

/-- Claim C7: in any dispatch pass, an element on which the consumer
returned false is never followed by another delivered element. -/
theorem C7_consumer_abort_is_final (d : DrawMap) (b : Bounds) (m : Map)
    (sim : GetDrawAgents) (so : ShowObjects) (order : RenderOrder)
    (cb : Renderable → Bool) (out : List Renderable) (c' : AgentCache)
    (h : d.handle_objects b m sim so order cb = some (out, c')) :
    ∀ i a a2, out[i]? = some a → out[i + 1]? = some a2 → cb a = true := by
  simp only [DrawMap.handle_objects, bind, Option.bind_eq_some,
    Option.some.injEq, Prod.mk.injEq] at h
  obtain ⟨st, hst, dyn, hdyn, ho, hc⟩ := h
  rw [← ho]
  exact deliver_stops cb _

/-- Claim C7 witness: with three areas on screen and a consumer rejecting
z-order 1, only the first two objects are delivered and every non-final
delivered object was accepted. -/
theorem C7_consumer_abort_is_final_witness :
    dmThree.handle_objects boundsZero mapEmpty simNone soAll
        RenderOrder.BackToFront (fun r => decide (r.zorder < 1))
      = some ([rArea0, rArea1], AgentCache.mk none [])
    ∧ ∀ i a a2, ([rArea0, rArea1] : List Renderable)[i]? = some a →
        ([rArea0, rArea1] : List Renderable)[i + 1]? = some a2 →
        decide (a.zorder < 1) = true :=
  ⟨by decide,
    C7_consumer_abort_is_final dmThree boundsZero mapEmpty simNone soAll
      RenderOrder.BackToFront (fun r => decide (r.zorder < 1))
      [rArea0, rArea1] (AgentCache.mk none []) (by decide)⟩

/-- Claim C1: a back-to-front dispatch to a non-aborting consumer delivers
exactly the stable z-order sort of the eight static buckets (in the fixed
category order of `staticConcat`) followed by the cached dynamic
drawables of the recorded occupied segments (`dynamicAppendix`): the delivered sequence is a
permutation of that concatenation, is sorted by z-order, and every pair
that was already in z-order in the concatenation keeps its relative order
(the stable tie-break). -/
theorem C1_dispatch_sequence (d : DrawMap) (b : Bounds) (m : Map)
    (sim : GetDrawAgents) (so : ShowObjects) (out : List Renderable)
    (c' : AgentCache)
    (h : d.handle_objects b m sim so RenderOrder.BackToFront (fun _ => true)
        = some (out, c')) :
    ∃ st dyn,
      (d.quadtree.query b).foldlM (processID d m sim so) (initHOState d)
          = some st
      ∧ dynamicAppendix st = some dyn
      ∧ out.Perm (staticConcat st ++ dyn)
      ∧ List.Sorted zLE out
      ∧ (∀ a a2, List.Sublist [a, a2] (staticConcat st ++ dyn) → zLE a a2 →
          List.Sublist [a, a2] out) := by
  simp only [DrawMap.handle_objects, bind, Option.bind_eq_some,
    Option.some.injEq, Prod.mk.injEq] at h
  obtain ⟨st, hst, dyn, hdyn, ho, hc⟩ := h
  have hout : out = (staticConcat st ++ dyn).insertionSort zLE := by
    rw [← ho]
    simp [deliver_true]
  refine ⟨st, dyn, hst, hdyn, ?_, ?_, ?_⟩
  · rw [hout]
    exact List.perm_insertionSort zLE _
  · rw [hout]
    exact List.sorted_insertionSort zLE _
  · intro a a2 hsub hle
    rw [hout]
    exact List.pair_sublist_insertionSort hle hsub

/-- Claim C1 witness: the two-object dispatch, with the area bucket ahead
of the building bucket and the z-order sort leaving them in place. -/
theorem C1_dispatch_sequence_witness :
    dmSmall.handle_objects boundsZero mapEmpty simNone soAll
        RenderOrder.BackToFront (fun _ => true)
      = some ([rArea0, rBuilding0], AgentCache.mk none [])
    ∧ ∃ st dyn,
      (dmSmall.quadtree.query boundsZero).foldlM
          (processID dmSmall mapEmpty simNone soAll) (initHOState dmSmall)
          = some st
      ∧ dynamicAppendix st = some dyn
      ∧ ([rArea0, rBuilding0] : List Renderable).Perm (staticConcat st ++ dyn)
      ∧ List.Sorted zLE [rArea0, rBuilding0]
      ∧ (∀ a a2, List.Sublist [a, a2] (staticConcat st ++ dyn) → zLE a a2 →
          List.Sublist [a, a2] [rArea0, rBuilding0]) :=
  ⟨by decide,
    C1_dispatch_sequence dmSmall boundsZero mapEmpty simNone soAll
      [rArea0, rBuilding0] (AgentCache.mk none []) (by decide)⟩

/-! Build lemmas. -/

theorem QuadTree.foldl_insert (q : QuadTree) (xs : List Renderable) :
    xs.foldl (fun q o => q.insert_with_box o.rid o.bounds) q
      = QuadTree.mk (q.entries ++ xs.map (fun o => (o.rid, o.bounds))) := by
  induction xs generalizing q with
  | nil => simp
  | cons x rest ih =>
    rw [List.foldl_cons, ih]
    simp [QuadTree.insert_with_box]

theorem QuadTree.foldl_insert_snd (q : QuadTree) (xs : List (Nat × Renderable)) :
    xs.foldl (fun q e => q.insert_with_box e.2.rid e.2.bounds) q
      = QuadTree.mk (q.entries ++ xs.map (fun e => (e.2.rid, e.2.bounds))) := by
  induction xs generalizing q with
  | nil => simp
  | cons x rest ih =>
    rw [List.foldl_cons, ih]
    simp [QuadTree.insert_with_box]

/-- Every element accumulated by the bus-stop fold wraps a bus-stop
constructor result. -/
theorem mem_busstops_fold (ctx : RenderCtx) (xs : List Nat)
    (acc : List (Nat × Renderable))
    (hacc : ∀ e ∈ acc, ∃ s, e.2 = ctx.mkBusStop s) :
    ∀ e ∈ xs.foldl (fun acc s => insertKV acc s (ctx.mkBusStop s)) acc,
      ∃ s, e.2 = ctx.mkBusStop s := by
  induction xs generalizing acc with
  | nil => exact hacc
  | cons x rest ih =>
    intro e he
    refine ih _ ?_ e he
    intro e' he'
    simp only [insertKV, List.mem_append, List.mem_filter,
      List.mem_singleton] at he'
    cases he' with
    | inl hmem => exact hacc e' hmem.1
    | inr heq => exact ⟨x, by rw [heq]⟩

/-- Unfolding of a successful `DrawMap.new`: every component in terms of
the map, flags and constructors, and the quadtree entry list as the map
over the seven inserted categories in source order. -/
theorem DrawMap.new_components (m : Map) (f : Flags) (ctx : RenderCtx)
    (d : DrawMap) (h : DrawMap.new m f ctx = some d) :
    d.lanes = m.lanes.map ctx.mkLane
    ∧ d.intersections = m.intersections.map ctx.mkIntersection
    ∧ d.buildings = m.buildings.map ctx.mkBuilding
    ∧ d.parcels = (if f.draw_parcels then m.parcels.map ctx.mkParcel else [])
    ∧ d.extra_shapes = (match f.kml with
        | some shapes => shapes
        | none => [])
    ∧ d.bus_stops = m.bus_stops.foldl
        (fun acc s => insertKV acc s (ctx.mkBusStop s)) []
    ∧ d.areas = m.areas.map ctx.mkArea
    ∧ d.agents = { tick := none, agents_per_on := [] }
    ∧ m.turns.foldlM (fun acc t => do
        let off ← lookupKV (m.lanes.foldl
          (fun r l => DrawMap.compute_turn_to_lane_offset r l m) []) t.id
        pure (insertKV acc t.id (DrawTurn.new ctx t off))) [] = some d.turns
    ∧ d.quadtree.entries
        = (d.lanes ++ d.intersections ++ d.buildings ++ d.parcels
            ++ d.extra_shapes ++ d.bus_stops.map Prod.snd ++ d.areas).map
            (fun o => (o.rid, o.bounds)) := by
  simp only [DrawMap.new, guard, bind, Option.bind_eq_some, pure,
    Option.some.injEq] at h
  split at h
  · obtain ⟨u, hu, turns, hturns, hd⟩ := h
    subst hd
    refine ⟨rfl, rfl, rfl, rfl, rfl, rfl, rfl, rfl, hturns, ?_⟩
    simp only [QuadTree.foldl_insert, QuadTree.foldl_insert_snd]
    simp [List.map_append, List.map_map, List.append_assoc, Function.comp]
  · simp at h

/-- Claim C2 (amended): after a successful build, the spatial index holds
exactly one (identifier, bounding box) entry for every drawable of the
seven inserted categories — lanes, intersections, buildings, parcels,
extra shapes, bus stops, areas — and, when the constructors tag
identifiers by category, no entry for any Turn or dynamic-agent
identifier. Turn drawables are never inserted. -/
theorem C2_static_index_entries (m : Map) (f : Flags) (ctx : RenderCtx)
    (d : DrawMap) (h : DrawMap.new m f ctx = some d) (htag : wellTagged ctx)
    (hkml : ∀ r ∈ (match f.kml with
        | some shapes => shapes
        | none => ([] : List Renderable)), ∃ n, r.rid = ID.extraShape n) :
    d.quadtree.entries
      = (d.lanes ++ d.intersections ++ d.buildings ++ d.parcels
          ++ d.extra_shapes ++ d.bus_stops.map Prod.snd ++ d.areas).map
          (fun o => (o.rid, o.bounds))
    ∧ ∀ e ∈ d.quadtree.entries,
        (∀ tid, e.1 ≠ ID.turn tid) ∧ (∀ n, e.1 ≠ ID.car n)
        ∧ (∀ n, e.1 ≠ ID.pedestrian n) ∧ (∀ n, e.1 ≠ ID.trip n) := by
  obtain ⟨hl, hi, hb, hp, hx, hbs, ha, hag, ht, hq⟩ :=
    DrawMap.new_components m f ctx d h
  refine ⟨hq, ?_⟩
  intro e he
  rw [hq] at he
  simp only [List.mem_map] at he
  obtain ⟨o, ho, rfl⟩ := he
  have hrid : (∃ n, o.rid = ID.lane n) ∨ (∃ n, o.rid = ID.intersection n)
      ∨ (∃ n, o.rid = ID.building n) ∨ (∃ n, o.rid = ID.parcel n)
      ∨ (∃ n, o.rid = ID.extraShape n) ∨ (∃ n, o.rid = ID.busStop n)
      ∨ (∃ n, o.rid = ID.area n) := by
    simp only [List.mem_append] at ho
    rcases ho with ((((((h1 | h2) | h3) | h4) | h5) | h6) | h7)
    · rw [hl] at h1
      obtain ⟨l, _, rfl⟩ := List.mem_map.mp h1
      exact Or.inl (htag.1 l)
    · rw [hi] at h2
      obtain ⟨i, _, rfl⟩ := List.mem_map.mp h2
      exact Or.inr (Or.inl (htag.2.1 i))
    · rw [hb] at h3
      obtain ⟨b, _, rfl⟩ := List.mem_map.mp h3
      exact Or.inr (Or.inr (Or.inl (htag.2.2.1 b)))
    · rw [hp] at h4
      split at h4
      · obtain ⟨p, _, rfl⟩ := List.mem_map.mp h4
        exact Or.inr (Or.inr (Or.inr (Or.inl (htag.2.2.2.1 p))))
      · exact absurd h4 (List.not_mem_nil o)
    · rw [hx] at h5
      exact Or.inr (Or.inr (Or.inr (Or.inr (Or.inl (hkml o h5)))))
    · obtain ⟨p, hpmem, hpe⟩ := List.mem_map.mp h6
      rw [hbs] at hpmem
      obtain ⟨s, hs⟩ := mem_busstops_fold ctx m.bus_stops []
        (by intro e he; exact absurd he (List.not_mem_nil e)) p hpmem
      exact Or.inr (Or.inr (Or.inr (Or.inr (Or.inr (Or.inl
        (hpe ▸ hs ▸ htag.2.2.2.2.1 s))))))
    · rw [ha] at h7
      obtain ⟨a, _, rfl⟩ := List.mem_map.mp h7
      exact Or.inr (Or.inr (Or.inr (Or.inr (Or.inr (Or.inr
        (htag.2.2.2.2.2 a))))))
  rcases hrid with ⟨n, hn⟩ | ⟨n, hn⟩ | ⟨n, hn⟩ | ⟨n, hn⟩ | ⟨n, hn⟩ |
    ⟨n, hn⟩ | ⟨n, hn⟩ <;> simp [hn]

/-- Claim C2 counterexample: in the build of the one-lane one-turn map,
the Turn drawable exists but the spatial index holds no entry keyed by its
identifier — contradicting "including every Turn drawable". -/
theorem C2_turn_entry_missing_counterexample :
    DrawMap.new mapC2 flagsNone ctxConst = some dmC2
    ∧ lookupKV dmC2.turns turnC2.id ≠ none
    ∧ ∀ b, (ID.turn turnC2.id, b) ∉ dmC2.quadtree.entries := by
  refine ⟨by decide, by decide, ?_⟩
  intro b hb
  simp [dmC2] at hb

/-- Claim C2 witness: the amended statement evaluated on the concrete
one-lane one-turn build. -/
theorem C2_static_index_entries_witness :
    DrawMap.new mapC2 flagsNone ctxConst = some dmC2
    ∧ (dmC2.quadtree.entries
        = (dmC2.lanes ++ dmC2.intersections ++ dmC2.buildings ++ dmC2.parcels
            ++ dmC2.extra_shapes ++ dmC2.bus_stops.map Prod.snd
            ++ dmC2.areas).map (fun o => (o.rid, o.bounds))
      ∧ ∀ e ∈ dmC2.quadtree.entries,
          (∀ tid, e.1 ≠ ID.turn tid) ∧ (∀ n, e.1 ≠ ID.car n)
          ∧ (∀ n, e.1 ≠ ID.pedestrian n) ∧ (∀ n, e.1 ≠ ID.trip n)) :=
  ⟨by decide,
    C2_static_index_entries mapC2 flagsNone ctxConst dmC2 (by decide)
      ⟨fun l => ⟨l.id, rfl⟩, fun i => ⟨i.id, rfl⟩, fun b => ⟨b, rfl⟩,
        fun p => ⟨p, rfl⟩, fun s => ⟨s, rfl⟩, fun a => ⟨a, rfl⟩⟩
      (fun r hr => absurd hr (List.not_mem_nil r))⟩

/-- Claim C8: `edit_lane_type` replaces exactly the one lane drawable at
the given position and changes nothing else — every other category, the
turn drawables, the agent cache and the quadtree are untouched, so any
spatial query returns the same identifier sequence before and after. -/
theorem C8_edit_lane_in_place (d d' : DrawMap) (id : Nat) (m : Map)
    (ctx : RenderCtx) (h : d.edit_lane_type id m ctx = some d') :
    d'.quadtree = d.quadtree
    ∧ (∀ r, d'.quadtree.query r = d.quadtree.query r)
    ∧ d'.agents = d.agents
    ∧ d'.turns = d.turns
    ∧ d'.intersections = d.intersections
    ∧ d'.buildings = d.buildings
    ∧ d'.parcels = d.parcels
    ∧ d'.extra_shapes = d.extra_shapes
    ∧ d'.bus_stops = d.bus_stops
    ∧ d'.areas = d.areas
    ∧ d'.lanes.length = d.lanes.length
    ∧ (∀ j, j ≠ id → d'.lanes[j]? = d.lanes[j]?)
    ∧ (∃ l, m.get_l id = some l ∧ d'.lanes[id]? = some (ctx.mkLane l)) := by
  simp only [DrawMap.edit_lane_type, bind, Option.bind_eq_some] at h
  obtain ⟨l, hl, h⟩ := h
  split at h
  · rename_i hlt
    simp only [Option.some.injEq] at h
    subst h
    refine ⟨rfl, fun _ => rfl, rfl, rfl, rfl, rfl, rfl, rfl, rfl, rfl, ?_,
      ?_, ?_⟩
    · exact List.length_set d.lanes id (ctx.mkLane l)
    · intro j hj
      exact List.getElem?_set_ne (fun hx => hj hx.symm)
    · exact ⟨l, hl, by simp [List.getElem?_set_self hlt]⟩
  · exact absurd h (by simp)

/-- Claim C8 witness: replacing lane 0 of a one-lane draw map leaves the
quadtree, every other category and every other lane slot unchanged. -/
theorem C8_edit_lane_in_place_witness :
    (dmLane.edit_lane_type 0 mapC4 ctxConst = some dmLaneEdited)
    ∧ dmLaneEdited.quadtree = dmLane.quadtree
    ∧ (∀ r, dmLaneEdited.quadtree.query r = dmLane.quadtree.query r)
    ∧ dmLaneEdited.agents = dmLane.agents
    ∧ (∃ l, mapC4.get_l 0 = some l
        ∧ dmLaneEdited.lanes[0]? = some (ctxConst.mkLane l)) := by
  have h := C8_edit_lane_in_place dmLane dmLaneEdited 0 mapC4 ctxConst
    (by decide)
  exact ⟨by decide, h.1, h.2.1, h.2.2.1, h.2.2.2.2.2.2.2.2.2.2.2.2⟩

/-- Claim C4: `compute_turn_to_lane_offset` partitions the turns from a
lane into the two destination groups, stably sorts each group by ascending
normalized integer angle (ties keep the original iteration order), and
assigns dense offsets 0..n-1 within each group independently: each sorted
group position j gets offset j. -/
theorem C4_compute_turn_offsets (m : Map) (l : Lane)
    (hnodup : ((m.get_turns_from_lane l.id).map Turn.id).Nodup) :
    (sortedGroup0 m l).Perm (turnGroup0 m l)
    ∧ (sortedGroup1 m l).Perm (turnGroup1 m l)
    ∧ List.Sorted turnLE (sortedGroup0 m l)
    ∧ List.Sorted turnLE (sortedGroup1 m l)
    ∧ (∀ a b, List.Sublist [a, b] (turnGroup0 m l) → turnLE a b →
        List.Sublist [a, b] (sortedGroup0 m l))
    ∧ (∀ a b, List.Sublist [a, b] (turnGroup1 m l) → turnLE a b →
        List.Sublist [a, b] (sortedGroup1 m l))
    ∧ (∀ j, (hj : j < (sortedGroup0 m l).length) →
        lookupKV (DrawMap.compute_turn_to_lane_offset [] l m)
          (((sortedGroup0 m l).get ⟨j, hj⟩).id) = some j)
    ∧ (∀ j, (hj : j < (sortedGroup1 m l).length) →
        lookupKV (DrawMap.compute_turn_to_lane_offset [] l m)
          (((sortedGroup1 m l).get ⟨j, hj⟩).id) = some j) :=
  ⟨List.perm_insertionSort _ _, List.perm_insertionSort _ _,
    List.sorted_insertionSort _ _, List.sorted_insertionSort _ _,
    fun _ _ hs hle => List.pair_sublist_insertionSort hle hs,
    fun _ _ hs hle => List.pair_sublist_insertionSort hle hs,
    fun j hj => compute_lookup0 [] l m hnodup j hj,
    fun j hj => compute_lookup1 [] l m hnodup j hj⟩

/-- Claim C4 witness: the spec example — turns at 170, 10, 90 integer
degrees all ending at the same destination intersection receive offsets
10 to 0, 90 to 1, 170 to 2. -/
theorem C4_compute_turn_offsets_witness :
    ((mapC4.get_turns_from_lane laneC4.id).map Turn.id).Nodup
    ∧ sortedGroup0 mapC4 laneC4 = [turn10, turn90, turn170]
    ∧ lookupKV (DrawMap.compute_turn_to_lane_offset [] laneC4 mapC4)
        turn10.id = some 0
    ∧ lookupKV (DrawMap.compute_turn_to_lane_offset [] laneC4 mapC4)
        turn90.id = some 1
    ∧ lookupKV (DrawMap.compute_turn_to_lane_offset [] laneC4 mapC4)
        turn170.id = some 2 := by
  have h := C4_compute_turn_offsets mapC4 laneC4 (by decide)
  refine ⟨by decide, by decide, ?_, ?_, ?_⟩
  · have h0 := h.2.2.2.2.2.2.1 0 (by decide)
    have he : ((sortedGroup0 mapC4 laneC4).get ⟨0, by decide⟩).id
        = turn10.id := by decide
    rw [← he]
    exact h0
  · have h1 := h.2.2.2.2.2.2.1 1 (by decide)
    have he : ((sortedGroup0 mapC4 laneC4).get ⟨1, by decide⟩).id
        = turn90.id := by decide
    rw [← he]
    exact h1
  · have h2 := h.2.2.2.2.2.2.1 2 (by decide)
    have he : ((sortedGroup0 mapC4 laneC4).get ⟨2, by decide⟩).id
        = turn170.id := by decide
    rw [← he]
    exact h2

/-! Lemmas about the whole-map offset fold and the turn-drawable fold of
the build. -/

/-- Every turn returned for a lane originates at that lane. -/
theorem mem_turns_from_lane_src (m : Map) (lid : Nat) (t : Turn)
    (ht : t ∈ m.get_turns_from_lane lid) : t.id.src = lid := by
  simp only [Map.get_turns_from_lane, List.mem_filter,
    decide_eq_true_eq] at ht
  exact ht.2

/-- The per-lane offset fold leaves keys of other lanes untouched. -/
theorem fold_compute_other (m : Map) (ls : List Lane)
    (r : List (TurnID × Nat)) (k : TurnID) :
    (∀ l ∈ ls, k ∉ (m.get_turns_from_lane l.id).map Turn.id) →
    lookupKV (ls.foldl
      (fun r l => DrawMap.compute_turn_to_lane_offset r l m) r) k
      = lookupKV r k := by
  induction ls generalizing r with
  | nil => intro _; rfl
  | cons l rest ih =>
    intro h
    rw [List.foldl_cons,
      ih _ (fun l' hl' => h l' (List.mem_cons_of_mem _ hl'))]
    exact compute_lookup_other r l m k (h l (List.mem_cons_self _ _))

/-- The turn-drawable fold of the build leaves foreign keys untouched. -/
theorem turnsfold_other (ctx : RenderCtx) (t2o : List (TurnID × Nat))
    (ts : List Turn) (res : List (TurnID × DrawTurn)) (k : TurnID) :
    ∀ acc, k ∉ ts.map Turn.id →
    ts.foldlM (fun acc t => do
      let off ← lookupKV t2o t.id
      pure (insertKV acc t.id (DrawTurn.new ctx t off))) acc = some res →
    lookupKV res k = lookupKV acc k := by
  induction ts with
  | nil =>
    intro acc _ h
    simp only [List.foldlM_nil, pure, Option.some.injEq] at h
    rw [← h]
  | cons t rest ih =>
    intro acc hk h
    simp only [List.map_cons, List.mem_cons, not_or] at hk
    rw [List.foldlM_cons] at h
    simp only [bind, Option.bind_eq_some, pure, Option.some.injEq] at h
    obtain ⟨acc2, ⟨off, hoff, hacc2⟩, hrest⟩ := h
    rw [ih acc2 hk.2 hrest, ← hacc2, lookupKV_insertKV, if_neg hk.1]

/-- The turn-drawable fold of the build stores, for a turn whose id does
not recur later, exactly the drawable built from its looked-up offset. -/
theorem turnsfold_hit (ctx : RenderCtx) (t2o : List (TurnID × Nat))
    (ts₁ ts₂ : List Turn) (t : Turn) (acc res : List (TurnID × DrawTurn))
    (hk2 : t.id ∉ ts₂.map Turn.id)
    (h : (ts₁ ++ t :: ts₂).foldlM (fun acc t => do
      let off ← lookupKV t2o t.id
      pure (insertKV acc t.id (DrawTurn.new ctx t off))) acc = some res) :
    ∃ off, lookupKV t2o t.id = some off
      ∧ lookupKV res t.id = some (DrawTurn.new ctx t off) := by
  rw [List.foldlM_append] at h
  simp only [bind, Option.bind_eq_some] at h
  obtain ⟨mid, hmid, h⟩ := h
  rw [List.foldlM_cons] at h
  simp only [bind, Option.bind_eq_some, pure, Option.some.injEq] at h
  obtain ⟨acc2, ⟨off, hoff, hacc2⟩, hrest⟩ := h
  refine ⟨off, hoff, ?_⟩
  rw [turnsfold_other ctx t2o ts₂ res t.id acc2 hk2 hrest, ← hacc2,
    lookupKV_insertKV, if_pos rfl]

/-- In a successful build, a turn key of lane `l` whose per-lane computed
offset is `j` is stored with offset `j` in the turn-drawable map. -/
theorem build_turns_lookup (m : Map) (f : Flags) (ctx : RenderCtx)
    (d : DrawMap) (h : DrawMap.new m f ctx = some d)
    (hlanes : (m.lanes.map Lane.id).Nodup)
    (hturnids : (m.turns.map Turn.id).Nodup)
    (l : Lane) (hl : l ∈ m.lanes) (k : TurnID) (j : Nat)
    (hkmem : k ∈ (m.get_turns_from_lane l.id).map Turn.id)
    (hcomp : ∀ r', lookupKV (DrawMap.compute_turn_to_lane_offset r' l m) k
      = some j) :
    (lookupKV d.turns k).map DrawTurn.offset = some j := by
  obtain ⟨tk, htk, htkid⟩ := List.mem_map.mp hkmem
  have hksrc : k.src = l.id := htkid ▸ mem_turns_from_lane_src m l.id tk htk
  obtain ⟨ls₁, ls₂, hsplit⟩ := List.append_of_mem hl
  have hlid2 : l.id ∉ ls₂.map Lane.id := by
    rw [hsplit] at hlanes
    simp only [List.map_append, List.map_cons, List.nodup_append] at hlanes
    exact (List.nodup_cons.mp hlanes.2.1).1
  have hafter : ∀ l' ∈ ls₂, k ∉ (m.get_turns_from_lane l'.id).map Turn.id := by
    intro l' hl' hmem
    obtain ⟨t', ht', hte⟩ := List.mem_map.mp hmem
    have h1 : k.src = l'.id := hte ▸ mem_turns_from_lane_src m l'.id t' ht'
    have h2 : l'.id ∈ ls₂.map Lane.id := List.mem_map_of_mem Lane.id hl'
    rw [← h1, hksrc] at h2
    exact hlid2 h2
  have ht2o : lookupKV (m.lanes.foldl
      (fun r l => DrawMap.compute_turn_to_lane_offset r l m) []) k
      = some j := by
    rw [hsplit, List.foldl_append, List.foldl_cons,
      fold_compute_other m ls₂ _ k hafter, hcomp]
  have htkm : tk ∈ m.turns := by
    have := htk
    simp only [Map.get_turns_from_lane] at this
    exact List.mem_of_mem_filter this
  obtain ⟨ts₁, ts₂, htsplit⟩ := List.append_of_mem htkm
  have hknot2 : tk.id ∉ ts₂.map Turn.id := by
    rw [htsplit] at hturnids
    simp only [List.map_append, List.map_cons, List.nodup_append] at hturnids
    exact (List.nodup_cons.mp hturnids.2.1).1
  obtain ⟨_, _, _, _, _, _, _, _, hturnsfold, _⟩ :=
    DrawMap.new_components m f ctx d h
  rw [htsplit] at hturnsfold
  obtain ⟨off, hoff, hres⟩ :=
    turnsfold_hit ctx _ ts₁ ts₂ tk [] d.turns hknot2 hturnsfold
  rw [htkid] at hoff hres
  rw [ht2o] at hoff
  have hoffj : off = j := by
    injection hoff with hoffj2
    exact hoffj2.symm
  rw [hres]
  simp [DrawTurn.new, hoffj]

/-- Claim C9 (amended): `DrawMap.new` establishes the offset invariant —
within each (lane, destination group) the stored Turn drawables carry
offsets that are exactly 0..n-1 in stable ascending-angle order — but the
edit operations do not preserve it: `edit_add_turn` recomputes only the
added turn and leaves previously built drawables with stale offsets. This
theorem is the build-time half. -/
theorem C9_build_offsets_dense (m : Map) (f : Flags) (ctx : RenderCtx)
    (d : DrawMap) (h : DrawMap.new m f ctx = some d)
    (hlanes : (m.lanes.map Lane.id).Nodup)
    (hturnids : (m.turns.map Turn.id).Nodup) :
    ∀ l ∈ m.lanes,
      (∀ j, (hj : j < (sortedGroup0 m l).length) →
        (lookupKV d.turns (((sortedGroup0 m l).get ⟨j, hj⟩).id)).map
          DrawTurn.offset = some j)
      ∧ (∀ j, (hj : j < (sortedGroup1 m l).length) →
        (lookupKV d.turns (((sortedGroup1 m l).get ⟨j, hj⟩).id)).map
          DrawTurn.offset = some j) := by
  intro l hl
  have hfl_nodup : ((m.get_turns_from_lane l.id).map Turn.id).Nodup := by
    have hsub : List.Sublist (m.get_turns_from_lane l.id) m.turns := by
      simp only [Map.get_turns_from_lane]
      exact List.filter_sublist _
    exact List.Nodup.sublist (hsub.map Turn.id) hturnids
  constructor
  · intro j hj
    have h1 : (sortedGroup0 m l).get ⟨j, hj⟩ ∈ sortedGroup0 m l :=
      List.get_mem _ _ hj
    have h2 := (List.perm_insertionSort turnLE (turnGroup0 m l)).mem_iff.mp h1
    simp only [turnGroup0] at h2
    exact build_turns_lookup m f ctx d h hlanes hturnids l hl _ j
      (List.mem_map_of_mem Turn.id (List.mem_of_mem_filter h2))
      (fun r' => compute_lookup0 r' l m hfl_nodup j hj)
  · intro j hj
    have h1 : (sortedGroup1 m l).get ⟨j, hj⟩ ∈ sortedGroup1 m l :=
      List.get_mem _ _ hj
    have h2 := (List.perm_insertionSort turnLE (turnGroup1 m l)).mem_iff.mp h1
    simp only [turnGroup1] at h2
    exact build_turns_lookup m f ctx d h hlanes hturnids l hl _ j
      (List.mem_map_of_mem Turn.id (List.mem_of_mem_filter h2))
      (fun r' => compute_lookup1 r' l m hfl_nodup j hj)

/-- Claim C9 counterexample: after building the one-lane one-turn map (the
invariant holds: group offsets [0]), `edit_add_turn` of a turn whose angle
sorts first leaves the (lane 0, intersection 1) group with offsets [0, 0]
— not unique, not dense — so the invariant is not preserved by every
operation. -/
theorem C9_offsets_not_preserved_counterexample :
    DrawMap.new mapC2 flagsNone ctxConst = some dmC2
    ∧ offsetsOf dmC2 0 1 = [0]
    ∧ ((DrawMap.new mapC2 flagsNone ctxConst).bind
        (fun d => d.edit_add_turn turnT2.id mapC9 ctxConst)).map
        (fun d => offsetsOf d 0 1) = some [0, 0]
    ∧ ¬ ([0, 0] : List Nat).Nodup :=
  ⟨by decide, by decide, by decide, by decide⟩

/-- Claim C9 witness: the build-time invariant evaluated on the concrete
one-lane one-turn map. -/
theorem C9_build_offsets_dense_witness :
    DrawMap.new mapC2 flagsNone ctxConst = some dmC2
    ∧ (mapC2.lanes.map Lane.id).Nodup
    ∧ (mapC2.turns.map Turn.id).Nodup
    ∧ ∀ l ∈ mapC2.lanes,
      (∀ j, (hj : j < (sortedGroup0 mapC2 l).length) →
        (lookupKV dmC2.turns (((sortedGroup0 mapC2 l).get ⟨j, hj⟩).id)).map
          DrawTurn.offset = some j)
      ∧ (∀ j, (hj : j < (sortedGroup1 mapC2 l).length) →
        (lookupKV dmC2.turns (((sortedGroup1 mapC2 l).get ⟨j, hj⟩).id)).map
          DrawTurn.offset = some j) :=
  ⟨by decide, by decide, by decide,
    C9_build_offsets_dense mapC2 flagsNone ctxConst dmC2 (by decide)
      (by decide) (by decide)⟩

end AbStreet
